import Mathlib

/-!
# Verification of the FlightAware-to-G1000 track-log converter

Shallow embedding of the track-reconstruction pipeline of the repository
(`main.js` and its two unnamed variants, which share the helper functions
and the synthesis loop verbatim; the multi-source loop is from the variant
in `src/unnamed/part_001`).

Modelling conventions:
* JS numbers (IEEE doubles) are modelled as real numbers `ℝ`.
* timestamps (`Date.getTime()` values) are modelled as `ℤ` milliseconds
  since the epoch; the coordinate and timestamp arrays of a feed are
  assumed parallel and of equal length, per the extractor contract.
* `Math.atan2 y x` is the argument of the complex number `x + y·i`
  (range `(-π, π]`, with `atan2 0 0 = 0`, exactly as in JS).
* external collaborators — the date-fns formatter and the built-in
  number-to-string conversion used by `String(...)` — are supplied through
  a `Collab` record, mirroring the design document, which lists the date
  formatter among the consumed collaborator interfaces.  `String` applied
  to `undefined` yields the literal `"undefined"`, which is kept concrete.
* the statements `rows[0].spd = rows[1].spd` / `rows[0].hdg = rows[1].hdg`
  throw a JS `TypeError` when `rows[1]` does not exist; fallible steps are
  modelled with `Except String`.
* Lean's convention `x / 0 = 0` differs from the JS `Infinity` for the
  speed quotient at zero elapsed time; after deduplication consecutive
  points always have distinct timestamps, and no claim below inspects the
  numeric speed value, so the difference is immaterial here.
-/

namespace Tracklog

noncomputable section Geometry

open Real

/-- Function `deg2rad` from the source: `deg * (Math.PI / 180)`. -/
def deg2rad (deg : ℝ) : ℝ := deg * (π / 180)

/-- Function `toRadians` from the source: `degrees * Math.PI / 180`. -/
def toRadians (degrees : ℝ) : ℝ := degrees * π / 180

/-- Function `toDegrees` from the source: `radians * 180 / Math.PI`. -/
def toDegrees (radians : ℝ) : ℝ := radians * 180 / π

/-- The builtin `Math.atan2 y x`, modelled as the argument of the complex number
`x + y·i`.  Like the JS built-in, the value lies in `(-π, π]` and
`atan2 0 0 = 0`. -/
def atan2 (y x : ℝ) : ℝ := Complex.arg ⟨x, y⟩

/-- Truncation toward zero, the integer part used by the JS `%` operator
on finite operands. -/
def jsTrunc (x : ℝ) : ℤ := if 0 ≤ x then ⌊x⌋ else ⌈x⌉

/-- The JS remainder `a % b` on finite operands: the remainder of the
truncating division, with the sign of the dividend. -/
def jsMod (a b : ℝ) : ℝ := a - b * (jsTrunc (a / b) : ℝ)

/-- Function `getDistanceFromLatLonInNm` from the source: haversine great-circle
distance on a sphere of radius 6378.137 km, divided by 1.8520000016 to
give nautical miles. -/
def getDistanceFromLatLonInNm (lat1 lon1 lat2 lon2 : ℝ) : ℝ :=
  let R : ℝ := 6378.137
  let dLat := deg2rad (lat2 - lat1)
  let dLon := deg2rad (lon2 - lon1)
  let a := Real.sin (dLat / 2) * Real.sin (dLat / 2) +
    Real.cos (deg2rad lat1) * Real.cos (deg2rad lat2) *
    Real.sin (dLon / 2) * Real.sin (dLon / 2)
  let c := 2 * atan2 (Real.sqrt a) (Real.sqrt (1 - a))
  let d := R * c
  d / 1.8520000016

/-- Function `bearing` from the source: forward azimuth between two lat/lon pairs,
`(toDegrees (atan2 y x) + 360) % 360`. -/
def bearing (startLat startLng destLat destLng : ℝ) : ℝ :=
  let sLat := toRadians startLat
  let sLng := toRadians startLng
  let dLat := toRadians destLat
  let dLng := toRadians destLng
  let y := Real.sin (dLng - sLng) * Real.cos dLat
  let x := Real.cos sLat * Real.sin dLat -
    Real.sin sLat * Real.cos dLat * Real.cos (dLng - sLng)
  let brng := toDegrees (atan2 y x)
  jsMod (brng + 360) 360

end Geometry

/-- One KML coordinate triple `[lon, lat, altitudeMeters]`. -/
structure RawCoord where
  lon : ℝ
  lat : ℝ
  altMeters : ℝ

/-- The trajectory feature of a parsed feed: the coordinate array and the
parallel array of timestamps (`coordTimes`, decoded to epoch ms). -/
structure Feed where
  coordinates : List RawCoord
  times : List ℤ

/-- A track point: the mutable row object of the synthesis loop.  `spd`
and `hdg` are absent (`undefined`) until the derived-field pass sets
them; `none` models `undefined`. -/
structure Row where
  lat : ℝ
  lon : ℝ
  alt : ℤ
  t : ℤ
  date : String
  time : String
  zone : String
  pitch : String
  bank : String
  spd : Option ℤ
  hdg : Option ℤ

/-- The external collaborators consumed by the pipeline: the date-fns
formats `yyyy-LL-dd`, `HH:mm:ss` and `yyyy-LL-dd-HH:mm` applied to a
timestamp, and the ECMAScript number-to-string conversion used by
`String(...)` — `numStr` for arbitrary numbers (latitude/longitude) and
`intStr` for the integer-valued numbers produced by `Math.round` and
`Math.floor` (altitude, speed, heading). -/
structure Collab where
  fmtDate : ℤ → String
  fmtTime : ℤ → String
  fmtName : ℤ → String
  numStr : ℝ → String
  intStr : ℤ → String

noncomputable section Pipeline

/-- The body of the extraction loop: build one row from a coordinate and
its timestamp.  `alt` is `Math.round(coord[2] * 3.280839895)` (Mathlib's
`round` rounds halves up, as `Math.round` does); `date`/`time` come from
the formatter collaborator; `zone`, `pitch` and `bank` are the constants
from the source. -/
def mkRow (C : Collab) (c : RawCoord) (t : ℤ) : Row :=
  { lat := c.lat
    lon := c.lon
    alt := round (c.altMeters * 3.280839895)
    t := t
    date := C.fmtDate t
    time := C.fmtTime t
    zone := "-00:00"
    pitch := "0"
    bank := "0"
    spd := none
    hdg := none }

/-- The extraction loop over `coordinates[i]` / `times[i]`
(parallel arrays of equal length). -/
def extractRows (C : Collab) (f : Feed) : List Row :=
  (f.coordinates.zip f.times).map (fun p => mkRow C p.1 p.2)

/-- JS `Array.prototype.findIndex`: the index of the first element
satisfying the predicate, `-1` when there is none. -/
def findIndexJs {α : Type} (p : α → Bool) (l : List α) : ℤ :=
  match l.findIdx? p with
  | some i => (i : ℤ)
  | none => -1

/-- JS `Array.prototype.filter` with an `(element, index)` callback. -/
def jsFilterIdx {α : Type} (l : List α) (p : α → ℕ → Bool) : List α :=
  (l.enum.filter (fun ie => p ie.2 ie.1)).map (fun ie => ie.2)

/-- The deduplication filter from the source:
`rows.filter((row, index, self) => self.findIndex(t => t.t.getTime() === row.t.getTime()) === index)`. -/
def dedup (rows : List Row) : List Row :=
  jsFilterIdx rows (fun row index =>
    findIndexJs (fun r => r.t == row.t) rows == (index : ℤ))

open Classical in
/-- One iteration of the derived-field loop: distance, elapsed time and
bearing from the previous point; on zero distance speed and heading stay
`undefined`, otherwise
`spd = Math.floor(dist / (time / 1000 / 3600))`, `hdg = Math.floor(heading)`. -/
def passStep (last row : Row) : Row :=
  let dist := getDistanceFromLatLonInNm last.lat last.lon row.lat row.lon
  let time : ℤ := row.t - last.t
  let heading := bearing last.lat last.lon row.lat row.lon
  if dist = 0 then
    { row with spd := none, hdg := none }
  else
    { row with
      spd := some ⌊dist / ((time : ℝ) / 1000 / 3600)⌋
      hdg := some ⌊heading⌋ }

/-- The derived-field loop, carrying the `last` pointer. -/
def derivedGo (last : Row) : List Row → List Row
  | [] => []
  | r :: rs =>
    let r' := passStep last r
    r' :: derivedGo r' rs

/-- The derived-field pass: `last` starts as `rows[0]` and the loop runs
over all rows (so the first iteration compares `rows[0]` with itself). -/
def computeDerived (rows : List Row) : List Row :=
  match rows with
  | [] => []
  | r0 :: _ => derivedGo r0 rows

/-- The backfill step:
`if (rows[0].spd === undefined) rows[0].spd = rows[1].spd;` followed by
`if (rows[0].hdg === undefined) rows[0].hdg = rows[1].hdg;`.
Reading `rows[1].spd` when `rows[1]` does not exist (also `rows[0].spd`
on an empty array) is a JS `TypeError`, modelled as an error result. -/
def backfill (rows : List Row) : Except String (List Row) :=
  match rows with
  | [] => Except.error "TypeError: cannot read properties of undefined"
  | r0 :: rest =>
    if r0.spd = none then
      match rest with
      | [] => Except.error "TypeError: cannot read properties of undefined"
      | r1 :: rest' =>
        let r0' : Row := { r0 with spd := r1.spd }
        if r0'.hdg = none then
          Except.ok ({ r0' with hdg := r1.hdg } :: r1 :: rest')
        else
          Except.ok (r0' :: r1 :: rest')
    else
      if r0.hdg = none then
        match rest with
        | [] => Except.error "TypeError: cannot read properties of undefined"
        | r1 :: rest' => Except.ok ({ r0 with hdg := r1.hdg } :: r1 :: rest')
      else
        Except.ok (r0 :: rest)

/-- Track synthesis for one feed: extract, deduplicate, run the
derived-field pass, backfill the first point. -/
def synthesize (C : Collab) (f : Feed) : Except String (List Row) :=
  backfill (computeDerived (dedup (extractRows C f)))

end Pipeline

/-- JS `String.prototype.padStart(n)`: left-pad with spaces to length `n`
(no-op when already at least that long). -/
def padStart (s : String) (n : ℕ) : String :=
  String.mk (List.replicate (n - s.length) ' ') ++ s

/-- JS `String.prototype.padEnd(n)`: right-pad with spaces to length `n`. -/
def padEnd (s : String) (n : ℕ) : String :=
  s ++ String.mk (List.replicate (n - s.length) ' ')

/-- Conversion `String(x)` on a `number | undefined` value: `"undefined"` for
`undefined`, the collaborator's integer rendering otherwise. -/
def strOptInt (C : Collab) : Option ℤ → String
  | none => "undefined"
  | some n => C.intStr n

noncomputable section Rendering

/-- One output data line, the template literal from the source with its
exact separator fields. -/
def renderRow (C : Collab) (row : Row) : String :=
  padStart row.date 10 ++ "," ++
  padStart row.time 9 ++ "," ++
  padStart row.zone 8 ++ ",       ," ++
  padEnd (C.numStr row.lat) 13 ++ "," ++
  padEnd (C.numStr row.lon) 13 ++ ",        ,      ," ++
  padStart (C.intStr row.alt) 8 ++ ",      ,       ," ++
  padStart (strOptInt C row.spd) 7 ++ ",        ," ++
  padStart row.pitch 7 ++ "," ++
  padStart row.bank 7 ++
  ",       ,        ,     ,      ,      ,       ,       ,         ,         ,        ,        ,       ,       ,        ,        ,        ,        ,        ,        ,        ,        ,        ,    ,     ," ++
  padStart (strOptInt C row.hdg) 7 ++ "\n"

end Rendering

/-- The builtin `String.prototype.toLocaleUpperCase()`, modelled as ASCII
upper-casing of every character (the host-locale dependence of the JS
builtin is out of scope for the claims below). -/
def jsToUpper (s : String) : String := String.mk (s.data.map Char.toUpper)

/-- The first line of the Garmin G1000 header template, with the
upper-cased model and ident interpolations. -/
def headerLine1 (ident model : String) : String :=
  "#airframe_info, log_version=\"1.00\", airframe_name=\"" ++
  jsToUpper model ++
  "\", unit_software_part_number=\"000-A0000-0A\", unit_software_version=\"9.00\", system_software_part_number=\"000-A0000-00\", system_id=\"" ++
  jsToUpper ident ++
  "\", mode=NORMAL,\n"

/-- The second header line of the template: the unit labels row. -/
def headerLine2 : String :=
  "#yyy-mm-dd, hh:mm:ss,   hh:mm,  ident,      degrees,      degrees, ft Baro,  inch,  ft msl, deg C,     kt,     kt,     fpm,    deg,    deg,      G,      G,   deg,   deg, volts,   gals,   gals,      gph,      psi,   deg F,     psi,     Hg,    rpm,   deg F,   deg F,   deg F,   deg F,   deg F,   deg F,   deg F,   deg F,  ft wgs,  kt, enum,    deg,    MHz,    MHz,     MHz,     MHz,    fsd,    fsd,     kt,   deg,     nm,    deg,    deg,   bool,  enum,   enum,   deg,   deg,   fpm,   enum,   mt,    mt,     mt,    mt,     mt\n"

/-- The third header line of the template: the column names row. -/
def headerLine3 : String :=
  "  Lcl Date, Lcl Time, UTCOfst, AtvWpt,     Latitude,    Longitude,    AltB, BaroA,  AltMSL,   OAT,    IAS, GndSpd,    VSpd,  Pitch,   Roll,  LatAc, NormAc,   HDG,   TRK, volt1,  FQtyL,  FQtyR, E1 FFlow, E1 FPres, E1 OilT, E1 OilP, E1 MAP, E1 RPM, E1 CHT1, E1 CHT2, E1 CHT3, E1 CHT4, E1 EGT1, E1 EGT2, E1 EGT3, E1 EGT4,  AltGPS, TAS, HSIS,    CRS,   NAV1,   NAV2,    COM1,    COM2,   HCDI,   VCDI, WndSpd, WndDr, WptDst, WptBrg, MagVar, AfcsOn, RollM, PitchM, RollC, PichC, VSpdG, GPSfix,  HAL,   VAL, HPLwas, HPLfd, VPLwas\n"

/-- The full header template literal (a template literal is the
concatenation of its chunks and interpolations, in source order). -/
def header (ident model : String) : String :=
  "#airframe_info, log_version=\"1.00\", airframe_name=\"" ++
  jsToUpper model ++
  "\", unit_software_part_number=\"000-A0000-0A\", unit_software_version=\"9.00\", system_software_part_number=\"000-A0000-00\", system_id=\"" ++
  jsToUpper ident ++
  "\", mode=NORMAL,\n" ++ headerLine2 ++ headerLine3

/-- The mutable state of the multi-source loop in the variant source:
the accumulating `output` string and the once-set `first_timestamp`. -/
structure LoopState where
  output : String
  first_timestamp : Option ℤ

noncomputable section MainLoop

/-- One iteration of the multi-source loop: a feed with at most one
coordinate is skipped (`continue`); otherwise the feed is synthesized
(a `TypeError` escapes the loop), its rendered rows are appended to the
output, and `first_timestamp` is set to `rows[0].t` if still unset. -/
def processFeed (C : Collab) (st : LoopState) (f : Feed) :
    Except String LoopState :=
  if f.coordinates.length ≤ 1 then Except.ok st
  else
    match synthesize C f with
    | Except.error e => Except.error e
    | Except.ok rows =>
      Except.ok
        { output := st.output ++ String.join (rows.map (renderRow C))
          first_timestamp :=
            match st.first_timestamp with
            | none => rows.head?.map (fun r => r.t)
            | some t => some t }

/-- The multi-source loop over the supplied feeds, in caller order. -/
def processFeeds (C : Collab) : LoopState → List Feed → Except String LoopState
  | st, [] => Except.ok st
  | st, f :: fs =>
    match processFeed C st f with
    | Except.error e => Except.error e
    | Except.ok st' => processFeeds C st' fs

/-- The full run on already-fetched feeds: process all feeds, then write
`header + output` under the default name
`outputs/<IDENT_UPPER>-<format(first_timestamp, 'yyyy-LL-dd-HH:mm')>.csv`
(the `--output` override is out of scope here).  `format(null, ...)`
throws, modelled as an error. -/
def runMain (C : Collab) (ident model : String) (feeds : List Feed) :
    Except String (String × String) :=
  match processFeeds C ⟨"", none⟩ feeds with
  | Except.error e => Except.error e
  | Except.ok st =>
    match st.first_timestamp with
    | none => Except.error "RangeError: invalid time value"
    | some ts =>
      Except.ok
        ("outputs/" ++ jsToUpper ident ++ "-" ++ C.fmtName ts ++ ".csv",
         header ident model ++ st.output)

end MainLoop

/-! ### Definitions written from the specification's words

These definitions restate spec-side descriptions, to be compared with the
embedded code. -/

/-- From the deduplication claim's words (as amended to the millisecond
timestamps the code actually compares): the stable filter keeping exactly
those points with no earlier point of equal timestamp — the first
occurrence of each timestamp wins and relative order is preserved. -/
def firstOccurrences (rows : List Row) : List Row :=
  (rows.enum.filter
    (fun ie => (rows.take ie.1).all (fun r => !(r.t == ie.2.t)))).map
    (fun ie => ie.2)

noncomputable section SpecSide

/-- From the multi-source composition claim: each feed is independently
synthesized as its own Track and the rendered rows are concatenated in
the caller's source order; skipped feeds contribute nothing. -/
def independentOutput (C : Collab) : List Feed → String
  | [] => ""
  | f :: fs =>
    (if f.coordinates.length ≤ 1 then ""
     else
       match synthesize C f with
       | Except.ok rows => String.join (rows.map (renderRow C))
       | Except.error _ => "") ++ independentOutput C fs

/-- From the multi-source composition claim: the timestamp of the first
point of the first non-skipped Track. -/
def firstKeptTime (C : Collab) : List Feed → Option ℤ
  | [] => none
  | f :: fs =>
    if f.coordinates.length ≤ 1 then firstKeptTime C fs
    else
      match synthesize C f with
      | Except.ok rows => rows.head?.map (fun r => r.t)
      | Except.error _ => firstKeptTime C fs

/-- Everything of a successful run's file content after the first header
line; a function of the feeds and collaborators only (not of ident or
model). -/
def runContentTail (C : Collab) (feeds : List Feed) : String :=
  match processFeeds C ⟨"", none⟩ feeds with
  | Except.ok st => headerLine2 ++ headerLine3 ++ st.output
  | Except.error _ => ""

/-- The formatted timestamp part of a successful run's default filename;
a function of the feeds and collaborators only. -/
def runNameStamp (C : Collab) (feeds : List Feed) : String :=
  match processFeeds C ⟨"", none⟩ feeds with
  | Except.ok st =>
    match st.first_timestamp with
    | some ts => C.fmtName ts
    | none => ""
  | Except.error _ => ""

end SpecSide

/-! ### Proof infrastructure -/

/-- Indexed filter in direct recursive form, for reasoning about
`jsFilterIdx`. -/
def goIdx {α : Type} (p : α → ℕ → Bool) : List α → ℕ → List α
  | [], _ => []
  | a :: as, i => if p a i then a :: goIdx p as (i + 1) else goIdx p as (i + 1)

/-- Reference implementation of first-occurrence deduplication with an
explicit set of already-seen timestamps. -/
def dedupSeen (seen : List ℤ) : List Row → List Row
  | [] => []
  | r :: rs =>
    if r.t ∈ seen then dedupSeen seen rs
    else r :: dedupSeen (r.t :: seen) rs

/-- Number of occurrences of a character in a string. -/
def countChar (c : Char) (s : String) : ℕ := s.data.count c

/-- Number of comma-separated fields of a line. -/
def fieldCount (s : String) : ℕ := countChar ',' s + 1

/-! ### Concrete inputs for counterexamples and witnesses -/

/-- A concrete collaborator instance: constant formatter and
number-rendering functions (the claims hold for all collaborators; the
constants make concrete runs evaluable). -/
def Cc : Collab :=
  { fmtDate := fun _ => "2020-01-01"
    fmtTime := fun _ => "00:00:00"
    fmtName := fun _ => "2020-01-01-00:00"
    numStr := fun _ => "0"
    intStr := fun _ => "0" }

/-- A feed of two points on the equator, 90° of longitude and one minute
apart: a well-behaved two-point trajectory. -/
def gf : Feed := ⟨[⟨0, 0, 0⟩, ⟨90, 0, 0⟩], [0, 60000]⟩

/-- A feed of three points on the equator, 90° of longitude and one
minute apart each. -/
def f3 : Feed := ⟨[⟨0, 0, 0⟩, ⟨90, 0, 0⟩, ⟨180, 0, 0⟩], [0, 60000, 120000]⟩

/-- Two coordinates at the identical position with distinct timestamps. -/
def fSame : Feed := ⟨[⟨10, 50, 0⟩, ⟨10, 50, 0⟩], [0, 60000]⟩

/-- Two coordinates with the identical timestamp (1000 ms). -/
def fDup : Feed := ⟨[⟨-70, 40, 100⟩, ⟨-70.01, 40.01, 200⟩], [1000, 1000]⟩

/-- A one-coordinate feed (insufficient data, to be skipped). -/
def fShort : Feed := ⟨[⟨0, 0, 0⟩], [0]⟩

/-- Two coordinates 500 ms apart, inside the same wall-clock second. -/
def fMs : Feed := ⟨[⟨0, 0, 0⟩, ⟨90, 0, 0⟩], [0, 500]⟩

noncomputable section ConcreteRuns

/-- First extracted row of `gf` (and of `f3`). -/
def gRow0 : Row := mkRow Cc ⟨0, 0, 0⟩ 0

/-- Second extracted row of `gf` (and of `f3`). -/
def gRow1 : Row := mkRow Cc ⟨90, 0, 0⟩ 60000

/-- Third extracted row of `f3`. -/
def qRow2 : Row := mkRow Cc ⟨180, 0, 0⟩ 120000

/-- Speed computed for the second point of `gf` (elapsed time 60000 ms). -/
def gSpd : ℤ := ⌊getDistanceFromLatLonInNm 0 0 0 90 / (((60000 : ℤ) : ℝ) / 1000 / 3600)⌋

/-- Heading computed for the second point of `gf`. -/
def gHdg : ℤ := ⌊bearing 0 0 0 90⌋

/-- Speed computed for the third point of `f3` (elapsed time 60000 ms). -/
def qSpd : ℤ := ⌊getDistanceFromLatLonInNm 0 90 0 180 / (((60000 : ℤ) : ℝ) / 1000 / 3600)⌋

/-- Heading computed for the third point of `f3`. -/
def qHdg : ℤ := ⌊bearing 0 90 0 180⌋

/-- First synthesized row of `gf` (backfilled from the second). -/
def gRow0s : Row := { gRow0 with spd := some gSpd, hdg := some gHdg }

/-- Second synthesized row of `gf`. -/
def gRow1s : Row := { gRow1 with spd := some gSpd, hdg := some gHdg }

/-- Third synthesized row of `f3`. -/
def qRow2s : Row := { qRow2 with spd := some qSpd, hdg := some qHdg }

/-- The Track synthesized from `gf`. -/
def gfRows : List Row := [gRow0s, gRow1s]

/-- The Track synthesized from `f3`. -/
def f3Rows : List Row := [gRow0s, gRow1s, qRow2s]

/-- The rendered rows of `gf`'s Track. -/
def gfJoined : String := String.join (gfRows.map (renderRow Cc))

/-- The file content of a run on `[f3]` with ident `"a"`, model `"b"`. -/
def f3content : String := header "a" "b" ++ String.join (f3Rows.map (renderRow Cc))

end ConcreteRuns

/-- The default output filename of a run on `[f3]` (or `[gf]`) with
ident `"a"`. -/
def f3name : String := "outputs/A-2020-01-01-00:00.csv"

/-- The first synthesized row of `fSame`: position (lat 50, lon 10),
speed and heading still `undefined`. -/
def sameRow0 : Row :=
  { lat := 50, lon := 10, alt := 0, t := 0, date := "2020-01-01",
    time := "00:00:00", zone := "-00:00", pitch := "0", bank := "0",
    spd := none, hdg := none }

/-- The second synthesized row of `fSame`: identical position, one minute
later, speed and heading still `undefined`. -/
def sameRow1 : Row :=
  { lat := 50, lon := 10, alt := 0, t := 60000, date := "2020-01-01",
    time := "00:00:00", zone := "-00:00", pitch := "0", bank := "0",
    spd := none, hdg := none }

/-! ## Theorems -/

/-! ### Basic facts about the geometry helpers -/

theorem deg2rad_zero : deg2rad 0 = 0 := by simp [deg2rad]

/-- The distance function vanishes on identical coordinates: both angular
deltas are zero, so the haversine term is `0` and `c = 2 · atan2 0 1 = 0`. -/
theorem getDistance_self (lat lon : ℝ) :
    getDistanceFromLatLonInNm lat lon lat lon = 0 := by
  have h1 : (⟨1, 0⟩ : ℂ) = 1 := by
    apply Complex.ext <;> simp
  simp [getDistanceFromLatLonInNm, deg2rad_zero, atan2, h1, Complex.arg_one]

/-- The argument of a complex number with positive imaginary part is
positive. -/
theorem arg_pos_of_im_pos {x y : ℝ} (hy : 0 < y) :
    0 < Complex.arg ⟨x, y⟩ := by
  have h0 : 0 ≤ Complex.arg ⟨x, y⟩ := Complex.arg_nonneg_iff.mpr (le_of_lt hy)
  rcases eq_or_lt_of_le h0 with heq | hlt
  · exfalso
    have him : (⟨x, y⟩ : ℂ).im = 0 := (Complex.arg_eq_zero_iff.mp heq.symm).2
    exact absurd him (ne_of_gt hy)
  · exact hlt

/-- Whenever the haversine intermediate `a` is positive, the computed
distance is nonzero. -/
theorem getDistance_ne_zero_of_pos (lat1 lon1 lat2 lon2 : ℝ)
    (ha : 0 < Real.sin (deg2rad (lat2 - lat1) / 2) * Real.sin (deg2rad (lat2 - lat1) / 2) +
      Real.cos (deg2rad lat1) * Real.cos (deg2rad lat2) *
      Real.sin (deg2rad (lon2 - lon1) / 2) * Real.sin (deg2rad (lon2 - lon1) / 2)) :
    getDistanceFromLatLonInNm lat1 lon1 lat2 lon2 ≠ 0 := by
  have him : 0 < Real.sqrt (Real.sin (deg2rad (lat2 - lat1) / 2) * Real.sin (deg2rad (lat2 - lat1) / 2) +
      Real.cos (deg2rad lat1) * Real.cos (deg2rad lat2) *
      Real.sin (deg2rad (lon2 - lon1) / 2) * Real.sin (deg2rad (lon2 - lon1) / 2)) :=
    Real.sqrt_pos.mpr ha
  have harg := arg_pos_of_im_pos (x := Real.sqrt (1 - (Real.sin (deg2rad (lat2 - lat1) / 2) * Real.sin (deg2rad (lat2 - lat1) / 2) +
      Real.cos (deg2rad lat1) * Real.cos (deg2rad lat2) *
      Real.sin (deg2rad (lon2 - lon1) / 2) * Real.sin (deg2rad (lon2 - lon1) / 2)))) him
  have hpos : 0 < getDistanceFromLatLonInNm lat1 lon1 lat2 lon2 := by
    simp only [getDistanceFromLatLonInNm, atan2]
    apply div_pos
    · exact mul_pos (by norm_num) (mul_pos (by norm_num) harg)
    · norm_num
  exact ne_of_gt hpos

/-- On the equator, the distance of two points whose longitude delta has
a nonvanishing half-angle sine is nonzero. -/
theorem getDistance_equator_ne (a b : ℝ)
    (h : Real.sin (deg2rad (b - a) / 2) ≠ 0) :
    getDistanceFromLatLonInNm 0 a 0 b ≠ 0 := by
  apply getDistance_ne_zero_of_pos
  have hs : 0 < Real.sin (deg2rad (b - a) / 2) * Real.sin (deg2rad (b - a) / 2) :=
    mul_self_pos.mpr h
  simp only [sub_self, deg2rad_zero, zero_div, Real.sin_zero, Real.cos_zero,
    mul_zero, zero_mul, one_mul, zero_add]
  exact hs

/-- For positive `a` and positive modulus `b`, the JS remainder `a % b`
equals `b` times the fractional part of `a / b`. -/
theorem jsMod_of_pos {a b : ℝ} (ha : 0 < a) (hb : 0 < b) :
    jsMod a b = b * Int.fract (a / b) := by
  have hq : 0 ≤ a / b := le_of_lt (div_pos ha hb)
  rw [jsMod, jsTrunc, if_pos hq, Int.fract]
  field_simp

theorem jsMod_mem_Ico {a b : ℝ} (ha : 0 < a) (hb : 0 < b) :
    0 ≤ jsMod a b ∧ jsMod a b < b := by
  rw [jsMod_of_pos ha hb]
  refine ⟨mul_nonneg (le_of_lt hb) (Int.fract_nonneg _), ?_⟩
  calc b * Int.fract (a / b) < b * 1 := (mul_lt_mul_left hb).mpr (Int.fract_lt_one _)
    _ = b := mul_one b

/-- The azimuth `toDegrees (atan2 y x)` lies in `(-180, 180]`. -/
theorem toDegrees_atan2_mem (y x : ℝ) :
    -180 < toDegrees (atan2 y x) ∧ toDegrees (atan2 y x) ≤ 180 := by
  have hpi : (0 : ℝ) < Real.pi := Real.pi_pos
  have h1 : -Real.pi < atan2 y x := Complex.neg_pi_lt_arg _
  have h2 : atan2 y x ≤ Real.pi := Complex.arg_le_pi _
  unfold toDegrees
  constructor
  · rw [lt_div_iff hpi]
    nlinarith
  · rw [div_le_iff hpi]
    nlinarith

/-- The normalized azimuth `(toDegrees (atan2 y x) + 360) % 360` lies in
`[0, 360)`. -/
theorem jsMod_azimuth_mem (y x : ℝ) :
    0 ≤ jsMod (toDegrees (atan2 y x) + 360) 360 ∧
      jsMod (toDegrees (atan2 y x) + 360) 360 < 360 := by
  have hb := toDegrees_atan2_mem y x
  exact jsMod_mem_Ico (by linarith [hb.1]) (by norm_num)

/-- C8.  For every pair of input coordinates, the bearing function
returns a value in the half-open interval `[0, 360)` — the normalization
`(brng + 360) % 360` maps the `(-180, 180]` azimuth into `[0, 360)`. -/
theorem bearing_mem_Ico (startLat startLng destLat destLng : ℝ) :
    0 ≤ bearing startLat startLng destLat destLng ∧
      bearing startLat startLng destLat destLng < 360 := by
  simp only [bearing]
  exact jsMod_azimuth_mem _ _

/-! ### Deduplication: characterization, idempotence -/

theorem jsFilterIdx_eq_goIdx_from {α : Type} (p : α → ℕ → Bool) (l : List α) :
    ∀ n : ℕ,
      ((List.enumFrom n l).filter (fun ie => p ie.2 ie.1)).map (fun ie => ie.2) =
        goIdx p l n := by
  induction l with
  | nil => intro n; rfl
  | cons a as ih =>
    intro n
    rw [List.enumFrom_cons]
    simp only [List.filter_cons]
    by_cases h : p a n
    · simp only [h, if_true, List.map_cons, goIdx, ih (n + 1)]
    · simp only [h, Bool.false_eq_true, if_false, goIdx, ih (n + 1)]

theorem jsFilterIdx_eq_goIdx {α : Type} (p : α → ℕ → Bool) (l : List α) :
    jsFilterIdx l p = goIdx p l 0 :=
  jsFilterIdx_eq_goIdx_from p l 0

/-- Function `findIdx?` finds exactly the index of the first satisfying element:
if position `k` satisfies the predicate, the result is `some (i + k)`
precisely when no earlier position satisfies it. -/
theorem findIdx?_first (p : α → Bool) :
    ∀ (l : List α) (k : ℕ) (hk : k < l.length), p (l.get ⟨k, hk⟩) = true →
      ∀ i : ℕ,
        (List.findIdx? p l i = some (i + k) ↔
          (l.take k).all (fun x => !p x) = true) := by
  intro l
  induction l with
  | nil => intro k hk; exact absurd hk (Nat.not_lt_zero k)
  | cons a as ih =>
    intro k hk hp i
    cases k with
    | zero =>
      simp only [List.get] at hp
      rw [List.findIdx?_cons, if_pos hp]
      simp
    | succ k' =>
      simp only [List.get] at hp
      have hk' : k' < as.length := Nat.lt_of_succ_lt_succ hk
      rw [List.findIdx?_cons]
      by_cases hpa : p a = true
      · rw [if_pos hpa]
        constructor
        · intro hsome
          exfalso
          have : i = i + (k' + 1) := Option.some.inj hsome
          omega
        · intro hall
          exfalso
          have := (List.all_eq_true.mp hall) a (by simp)
          rw [hpa] at this
          simp at this
      · rw [if_neg hpa]
        have harr : i + (k' + 1) = (i + 1) + k' := by omega
        rw [harr, ih k' hk' hp (i + 1)]
        have hpa' : (!p a) = true := by
          simp [Bool.not_eq_true'] at hpa ⊢
          exact hpa
        simp [List.all_cons, hpa']

/-- The callback of the deduplication filter evaluates, at the element
sitting at its own index, to the first-occurrence condition. -/
theorem dedup_pred_eq (rows : List Row) (i : ℕ) (hi : i < rows.length) :
    (findIndexJs (fun r => r.t == (rows.get ⟨i, hi⟩).t) rows == (i : ℤ)) =
      (rows.take i).all (fun r => !(r.t == (rows.get ⟨i, hi⟩).t)) := by
  have hself : (fun r => r.t == (rows.get ⟨i, hi⟩).t) (rows.get ⟨i, hi⟩) = true :=
    beq_self_eq_true _
  by_cases hall : (rows.take i).all (fun r => !(r.t == (rows.get ⟨i, hi⟩).t)) = true
  · rw [hall]
    have hfind := (findIdx?_first _ rows i hi hself 0).mpr hall
    rw [Nat.zero_add] at hfind
    simp only [findIndexJs, hfind]
    exact beq_self_eq_true _
  · rw [Bool.eq_false_iff.mpr hall]
    rcases hidx : List.findIdx? (fun r => r.t == (rows.get ⟨i, hi⟩).t) rows with _ | m
    · exfalso
      have hthis := List.findIdx?_eq_none_iff.mp hidx _ (List.get_mem rows i hi)
      simp at hthis
    · have hmi : m ≠ i := by
        intro heq
        have hsome : List.findIdx? (fun r => r.t == (rows.get ⟨i, hi⟩).t) rows =
            some (0 + i) := by
          rw [Nat.zero_add]
          exact heq ▸ hidx
        exact hall ((findIdx?_first _ rows i hi hself 0).mp hsome)
      simp only [findIndexJs, hidx]
      exact beq_eq_false_iff_ne.mpr (fun hc => hmi (Nat.cast_injective hc))

/-- Any indexed filter whose callback agrees with the first-occurrence
condition computes `dedupSeen`: the `seen` accumulator stands for the set
of timestamps of the already-processed prefix. -/
theorem goIdx_eq_dedupSeen (rows : List Row) (p : Row → ℕ → Bool)
    (hp : ∀ (i : ℕ) (hi : i < rows.length),
      p (rows.get ⟨i, hi⟩) i =
        (rows.take i).all (fun r => !(r.t == (rows.get ⟨i, hi⟩).t))) :
    ∀ (l : List Row) (i : ℕ) (seen : List ℤ),
      rows.drop i = l →
      (∀ z : ℤ, z ∈ seen ↔ ∃ r ∈ rows.take i, r.t = z) →
      goIdx p l i = dedupSeen seen l := by
  intro l
  induction l with
  | nil => intro i seen _ _; rfl
  | cons r l' ih =>
    intro i seen hdrop hseen
    have hi : i < rows.length := by
      by_contra hge
      rw [List.drop_eq_nil_iff_le.mpr (Nat.le_of_not_lt hge)] at hdrop
      exact List.cons_ne_nil r l' hdrop.symm
    have hcons := List.drop_eq_get_cons (l := rows) hi
    rw [hdrop] at hcons
    injection hcons with hg hd
    have hget : rows.get ⟨i, hi⟩ = r := hg.symm
    have hdrop' : rows.drop (i + 1) = l' := hd.symm
    have htake : rows.take (i + 1) = rows.take i ++ [r] := by
      rw [List.take_succ]
      congr 1
      have hsome : rows[i]? = some r := by
        rw [List.getElem?_eq_getElem hi]
        exact congrArg some hget
      rw [hsome]
      rfl
    have hcond : p r i = (rows.take i).all (fun x => !(x.t == r.t)) := by
      rw [← hget]
      exact hp i hi
    have hgo : goIdx p (r :: l') i =
        if p r i then r :: goIdx p l' (i + 1) else goIdx p l' (i + 1) := rfl
    have hds : dedupSeen seen (r :: l') =
        if r.t ∈ seen then dedupSeen seen l'
        else r :: dedupSeen (r.t :: seen) l' := rfl
    by_cases hmem : r.t ∈ seen
    · have hallf : (rows.take i).all (fun x => !(x.t == r.t)) = false := by
        rcases (hseen r.t).mp hmem with ⟨x, hx, hxt⟩
        apply Bool.eq_false_iff.mpr
        intro hall
        have hx' := List.all_eq_true.mp hall x hx
        rw [Bool.not_eq_true'] at hx'
        exact (beq_eq_false_iff_ne.mp hx') hxt
      have hpfalse : p r i = false := by rw [hcond, hallf]
      rw [hgo, hpfalse, hds, if_pos hmem]
      simp only [Bool.false_eq_true, if_false]
      apply ih (i + 1) seen hdrop'
      intro z
      rw [hseen z, htake]
      constructor
      · rintro ⟨x, hx, hxt⟩
        exact ⟨x, List.mem_append_left _ hx, hxt⟩
      · rintro ⟨x, hx, hxt⟩
        rcases List.mem_append.mp hx with hx' | hx'
        · exact ⟨x, hx', hxt⟩
        · rcases List.mem_singleton.mp hx' with rfl
          rcases (hseen x.t).mp hmem with ⟨w, hw, hwt⟩
          exact ⟨w, hw, hwt.trans hxt⟩
    · have hallt : (rows.take i).all (fun x => !(x.t == r.t)) = true := by
        apply List.all_eq_true.mpr
        intro x hx
        rw [Bool.not_eq_true']
        apply beq_eq_false_iff_ne.mpr
        intro hxt
        exact hmem ((hseen r.t).mpr ⟨x, hx, hxt⟩)
      have hptrue : p r i = true := by rw [hcond, hallt]
      rw [hgo, hptrue, hds, if_neg hmem]
      simp only [if_true]
      congr 1
      apply ih (i + 1) (r.t :: seen) hdrop'
      intro z
      rw [List.mem_cons, hseen z, htake]
      constructor
      · rintro (rfl | ⟨x, hx, hxt⟩)
        · exact ⟨r, List.mem_append_right _ (List.mem_singleton.mpr rfl), rfl⟩
        · exact ⟨x, List.mem_append_left _ hx, hxt⟩
      · rintro ⟨x, hx, hxt⟩
        rcases List.mem_append.mp hx with hx' | hx'
        · exact Or.inr ⟨x, hx', hxt⟩
        · rcases List.mem_singleton.mp hx' with rfl
          exact Or.inl hxt.symm

theorem dedup_eq_dedupSeen (rows : List Row) :
    dedup rows = dedupSeen [] rows := by
  rw [dedup, jsFilterIdx_eq_goIdx]
  exact goIdx_eq_dedupSeen rows _ (fun i hi => dedup_pred_eq rows i hi)
    rows 0 [] rfl (by simp)

theorem firstOccurrences_eq_dedupSeen (rows : List Row) :
    firstOccurrences rows = dedupSeen [] rows := by
  have hfo : firstOccurrences rows = jsFilterIdx rows
      (fun row index => (rows.take index).all (fun r => !(r.t == row.t))) := rfl
  rw [hfo, jsFilterIdx_eq_goIdx]
  exact goIdx_eq_dedupSeen rows _ (fun i hi => rfl) rows 0 [] rfl (by simp)

/-- C2 (amended).  The deduplication filter removes exactly those points
whose millisecond timestamp (`Date.getTime()`) equals the timestamp of an
earlier point: it agrees with the stable first-occurrence filter, which
keeps the first point of each timestamp and preserves relative order. -/
theorem dedup_eq_firstOccurrences (rows : List Row) :
    dedup rows = firstOccurrences rows := by
  rw [dedup_eq_dedupSeen, firstOccurrences_eq_dedupSeen]

/-- C2 (counterexample).  Two input points 500 ms apart, both inside
wall-clock second `0`: the spec's second-resolution reading would merge
them into one, but the filter keeps both (it compares exact `getTime()`
values). -/
theorem dedup_not_second_resolution :
    ((extractRows Cc fMs).map (fun r => r.t)) = [0, 500] ∧
      (0 : ℤ) / 1000 = (500 : ℤ) / 1000 ∧
      (dedup (extractRows Cc fMs)).length = 2 := by
  refine ⟨rfl, by decide, ?_⟩
  rw [dedup_eq_dedupSeen]
  rfl

theorem dedupSeen_not_mem_seen :
    ∀ (seen : List ℤ) (l : List Row) (r : Row), r ∈ dedupSeen seen l → r.t ∉ seen := by
  intro seen l
  induction l generalizing seen with
  | nil => intro r hr; exact absurd hr (List.not_mem_nil r)
  | cons a l' ih =>
    intro r hr
    have hds : dedupSeen seen (a :: l') =
        if a.t ∈ seen then dedupSeen seen l'
        else a :: dedupSeen (a.t :: seen) l' := rfl
    by_cases hmem : a.t ∈ seen
    · rw [hds, if_pos hmem] at hr
      exact ih seen r hr
    · rw [hds, if_neg hmem] at hr
      rcases List.mem_cons.mp hr with rfl | hr'
      · exact hmem
      · have hnot := ih (a.t :: seen) r hr'
        intro hrs
        exact hnot (List.mem_cons_of_mem _ hrs)

theorem dedupSeen_pairwise :
    ∀ (seen : List ℤ) (l : List Row),
      (dedupSeen seen l).Pairwise (fun x y => x.t ≠ y.t) := by
  intro seen l
  induction l generalizing seen with
  | nil => exact List.Pairwise.nil
  | cons a l' ih =>
    have hds : dedupSeen seen (a :: l') =
        if a.t ∈ seen then dedupSeen seen l'
        else a :: dedupSeen (a.t :: seen) l' := rfl
    by_cases hmem : a.t ∈ seen
    · rw [hds, if_pos hmem]
      exact ih seen
    · rw [hds, if_neg hmem]
      apply List.Pairwise.cons
      · intro y hy hay
        apply dedupSeen_not_mem_seen (a.t :: seen) l' y hy
        rw [← hay]
        exact List.mem_cons_self _ _
      · exact ih (a.t :: seen)

theorem dedupSeen_of_pairwise :
    ∀ (seen : List ℤ) (l : List Row),
      l.Pairwise (fun x y => x.t ≠ y.t) → (∀ r ∈ l, r.t ∉ seen) →
      dedupSeen seen l = l := by
  intro seen l
  induction l generalizing seen with
  | nil => intro _ _; rfl
  | cons a l' ih =>
    intro hpw hni
    have hmem : a.t ∉ seen := hni a (List.mem_cons_self _ _)
    have hds : dedupSeen seen (a :: l') =
        if a.t ∈ seen then dedupSeen seen l'
        else a :: dedupSeen (a.t :: seen) l' := rfl
    rw [hds, if_neg hmem]
    congr 1
    apply ih (a.t :: seen) (List.pairwise_cons.mp hpw).2
    intro r hr
    rw [List.mem_cons]
    rintro (h | h)
    · exact (List.pairwise_cons.mp hpw).1 r hr h.symm
    · exact hni r (List.mem_cons_of_mem _ hr) h

/-- C9.  Deduplication is idempotent: the output of the duplicate-
timestamp filter has pairwise distinct timestamps, on which the filter is
the identity. -/
theorem dedup_idempotent (rows : List Row) :
    dedup (dedup rows) = dedup rows := by
  rw [dedup_eq_dedupSeen rows, dedup_eq_dedupSeen (dedupSeen [] rows)]
  apply dedupSeen_of_pairwise
  · exact dedupSeen_pairwise [] rows
  · intro r _
    exact List.not_mem_nil _

/-! ### The derived-field pass -/

theorem passStep_zero (last row : Row)
    (h : getDistanceFromLatLonInNm last.lat last.lon row.lat row.lon = 0) :
    passStep last row = { row with spd := none, hdg := none } := by
  simp only [passStep]
  rw [if_pos h]

theorem passStep_ne (last row : Row)
    (h : getDistanceFromLatLonInNm last.lat last.lon row.lat row.lon ≠ 0) :
    passStep last row = { row with
      spd := some ⌊getDistanceFromLatLonInNm last.lat last.lon row.lat row.lon /
        (((row.t - last.t : ℤ) : ℝ) / 1000 / 3600)⌋
      hdg := some ⌊bearing last.lat last.lon row.lat row.lon⌋ } := by
  simp only [passStep]
  rw [if_neg h]

theorem passStep_lat (last row : Row) : (passStep last row).lat = row.lat := by
  simp only [passStep]
  split <;> rfl

theorem passStep_lon (last row : Row) : (passStep last row).lon = row.lon := by
  simp only [passStep]
  split <;> rfl

theorem passStep_t (last row : Row) : (passStep last row).t = row.t := by
  simp only [passStep]
  split <;> rfl

/-- The `last` pointer of each iteration agrees with the previous input
element on position and timestamp, so the step function may be restated
against the input row. -/
theorem passStep_congr (last last' row : Row)
    (hlat : last'.lat = last.lat) (hlon : last'.lon = last.lon)
    (ht : last'.t = last.t) :
    passStep last' row = passStep last row := by
  simp only [passStep, hlat, hlon, ht]

/-- All points produced by the loop body have defined speed and heading
when consecutive input points are at nonzero distance. -/
theorem derivedGo_all_some (l : List Row) :
    ∀ last : Row,
      List.Chain' (fun a b =>
        getDistanceFromLatLonInNm a.lat a.lon b.lat b.lon ≠ 0) (last :: l) →
      ∀ r ∈ derivedGo last l, r.spd.isSome ∧ r.hdg.isSome := by
  induction l with
  | nil => intro last _ r hr; exact absurd hr (List.not_mem_nil r)
  | cons b l' ih =>
    intro last hch r hr
    have hd : getDistanceFromLatLonInNm last.lat last.lon b.lat b.lon ≠ 0 :=
      (List.chain'_cons.mp hch).1
    have hch' : List.Chain' (fun a b =>
        getDistanceFromLatLonInNm a.lat a.lon b.lat b.lon ≠ 0) (b :: l') :=
      (List.chain'_cons.mp hch).2
    have hstep := passStep_ne last b hd
    have hchpass : List.Chain' (fun a b =>
        getDistanceFromLatLonInNm a.lat a.lon b.lat b.lon ≠ 0)
        (passStep last b :: l') := by
      cases l' with
      | nil => exact List.chain'_singleton _
      | cons c l'' =>
        apply List.chain'_cons.mpr
        refine ⟨?_, (List.chain'_cons.mp hch').2⟩
        rw [passStep_lat, passStep_lon]
        exact (List.chain'_cons.mp hch').1
    rcases List.mem_cons.mp (by
        have hgo : derivedGo last (b :: l') =
          passStep last b :: derivedGo (passStep last b) l' := rfl
        rw [hgo] at hr
        exact hr) with rfl | hr'
    · rw [hstep]
      exact ⟨rfl, rfl⟩
    · exact ih (passStep last b) hchpass r hr'

/-- The loop body preserves position and timestamp pointwise. -/
theorem derivedGo_map_latlon (l : List Row) :
    ∀ last : Row,
      (derivedGo last l).map (fun r => (r.lat, r.lon)) =
        l.map (fun r => (r.lat, r.lon)) := by
  induction l with
  | nil => intro last; rfl
  | cons b l' ih =>
    intro last
    have hgo : derivedGo last (b :: l') =
        passStep last b :: derivedGo (passStep last b) l' := rfl
    rw [hgo, List.map_cons, List.map_cons, passStep_lat, passStep_lon, ih]

/-- Evaluation of `backfill` when the first point's derived fields are
still undefined and a second point exists. -/
theorem backfill_cons_none (c0 c1 : Row) (crest : List Row)
    (h0 : c0.spd = none) (h0' : c0.hdg = none) :
    backfill (c0 :: c1 :: crest) =
      Except.ok ({ c0 with spd := c1.spd, hdg := c1.hdg } :: c1 :: crest) := by
  simp only [backfill]
  rw [if_pos h0, if_pos (show ({ c0 with spd := c1.spd } : Row).hdg = none from h0')]

/-- C3 (amended).  In a synthesized Track with at least two points, every
point whose distance to its neighbour is nonzero has defined speed and
heading: provided no two consecutive Track points are at zero computed
distance, every point of the Track has defined `spd` and `hdg` (the
first point is backfilled from the second). -/
theorem synthesize_all_defined (C : Collab) (f : Feed) (rows' : List Row)
    (hok : synthesize C f = Except.ok rows')
    (h2 : 2 ≤ rows'.length)
    (hch : List.Chain' (fun a b =>
      getDistanceFromLatLonInNm a.lat a.lon b.lat b.lon ≠ 0) rows') :
    ∀ r ∈ rows', r.spd.isSome ∧ r.hdg.isSome := by
  unfold synthesize at hok
  rcases hdd : dedup (extractRows C f) with _ | ⟨d0, dtl⟩
  · rw [hdd] at hok
    exact absurd hok (by simp [computeDerived, backfill])
  rw [hdd] at hok
  rcases dtl with _ | ⟨d1, dtl'⟩
  · have hc1 : computeDerived [d0] = [passStep d0 d0] := rfl
    rw [hc1, passStep_zero d0 d0 (getDistance_self _ _)] at hok
    exact absurd hok (by simp [backfill])
  have hps0 : passStep d0 d0 = { d0 with spd := none, hdg := none } :=
    passStep_zero d0 d0 (getDistance_self _ _)
  have hcd : computeDerived (d0 :: d1 :: dtl') =
      passStep d0 d0 :: passStep (passStep d0 d0) d1 ::
        derivedGo (passStep (passStep d0 d0) d1) dtl' := rfl
  rw [hcd] at hok
  rw [backfill_cons_none _ _ _ (by rw [hps0]) (by rw [hps0])] at hok
  injection hok with hok'
  subst hok'
  -- transfer the chain hypothesis from the output rows to the input rows
  have hmapgo := derivedGo_map_latlon (d1 :: dtl') (passStep d0 d0)
  have hch_tail : List.Chain' (fun a b =>
      getDistanceFromLatLonInNm a.lat a.lon b.lat b.lon ≠ 0) (d1 :: dtl') := by
    have h1 := (List.chain'_cons.mp hch).2
    have h2' : List.Chain' (fun p q : ℝ × ℝ =>
        getDistanceFromLatLonInNm p.1 p.2 q.1 q.2 ≠ 0)
        ((derivedGo (passStep d0 d0) (d1 :: dtl')).map (fun r => (r.lat, r.lon))) :=
      (List.chain'_map _).mpr h1
    rw [hmapgo] at h2'
    exact (List.chain'_map _).mp h2'
  have hlink : getDistanceFromLatLonInNm (passStep d0 d0).lat (passStep d0 d0).lon
      d1.lat d1.lon ≠ 0 := by
    have h1 := (List.chain'_cons.mp hch).1
    rw [passStep_lat (passStep d0 d0) d1, passStep_lon (passStep d0 d0) d1] at h1
    exact h1
  have hgo_chain : List.Chain' (fun a b =>
      getDistanceFromLatLonInNm a.lat a.lon b.lat b.lon ≠ 0)
      (passStep d0 d0 :: d1 :: dtl') :=
    List.chain'_cons.mpr ⟨hlink, hch_tail⟩
  have hall := derivedGo_all_some (d1 :: dtl') (passStep d0 d0) hgo_chain
  intro r hr
  rcases List.mem_cons.mp hr with rfl | hr'
  · constructor
    · have := (hall (passStep (passStep d0 d0) d1) (by
        exact List.mem_cons_self _ _)).1
      exact this
    · have := (hall (passStep (passStep d0 d0) d1) (by
        exact List.mem_cons_self _ _)).2
      exact this
  · exact hall r hr'

/-- Collapsing a field update that rewrites `spd` and `hdg` to the values
they already have. -/
theorem row_update_eq (r : Row) (v w : Option ℤ) (h1 : r.spd = v) (h2 : r.hdg = w) :
    ({ r with spd := v, hdg := w } : Row) = r := by
  cases r with
  | mk lat lon alt t date time zone pitch bank spd hdg =>
    dsimp only at h1 h2 ⊢
    rw [h1, h2]

/-- C3 (counterexample).  Two consecutive points at the identical
position with distinct timestamps synthesize successfully into a 2-point
Track in which both points, the backfilled first one included, have
`undefined` speed and heading. -/
theorem synthesize_same_position_all_undefined :
    synthesize Cc fSame = Except.ok [sameRow0, sameRow1] ∧
      sameRow0.spd = none ∧ sameRow0.hdg = none ∧
      sameRow1.spd = none ∧ sameRow1.hdg = none := by
  refine ⟨?_, rfl, rfl, rfl, rfl⟩
  have halt : round ((0 : ℝ) * 3.280839895) = (0 : ℤ) := by
    rw [zero_mul, round_zero]
  have hE : extractRows Cc fSame = [sameRow0, sameRow1] := by
    simp [extractRows, fSame, mkRow, Cc, halt, sameRow0, sameRow1]
  have hdd : dedup [sameRow0, sameRow1] = [sameRow0, sameRow1] := by
    rw [dedup_eq_dedupSeen]
    rfl
  have hd00 : getDistanceFromLatLonInNm sameRow0.lat sameRow0.lon
      sameRow0.lat sameRow0.lon = 0 := getDistance_self _ _
  have hd01 : getDistanceFromLatLonInNm sameRow0.lat sameRow0.lon
      sameRow1.lat sameRow1.lon = 0 := getDistance_self 50 10
  have hps0 : passStep sameRow0 sameRow0 = sameRow0 := by
    rw [passStep_zero sameRow0 sameRow0 hd00]
    exact row_update_eq _ _ _ rfl rfl
  have hps1 : passStep sameRow0 sameRow1 = sameRow1 := by
    rw [passStep_zero sameRow0 sameRow1 hd01]
    exact row_update_eq _ _ _ rfl rfl
  have hcd : computeDerived [sameRow0, sameRow1] = [sameRow0, sameRow1] := by
    have h1 : computeDerived [sameRow0, sameRow1] =
        passStep sameRow0 sameRow0 ::
          passStep (passStep sameRow0 sameRow0) sameRow1 :: [] := rfl
    rw [h1, hps0, hps1]
  have hbf : backfill [sameRow0, sameRow1] = Except.ok [sameRow0, sameRow1] := by
    rw [backfill_cons_none sameRow0 sameRow1 [] rfl rfl,
      row_update_eq sameRow0 sameRow1.spd sameRow1.hdg rfl rfl]
  unfold synthesize
  rw [hE, hdd, hcd, hbf]

/-- C1.  Two coordinates with the identical timestamp: deduplication
keeps a single row, its speed and heading stay undefined after the pass,
and the backfill step then throws (reading `rows[1].spd` with `rows[1]`
nonexistent) — the run aborts before rendering instead of emitting the
single row. -/
theorem dup_timestamp_crash :
    (dedup (extractRows Cc fDup)).length = 1 ∧
      synthesize Cc fDup =
        Except.error "TypeError: cannot read properties of undefined" ∧
      processFeeds Cc ⟨"", none⟩ [fDup] =
        Except.error "TypeError: cannot read properties of undefined" := by
  have hdd : dedup (extractRows Cc fDup) = [mkRow Cc ⟨-70, 40, 100⟩ 1000] := by
    rw [dedup_eq_dedupSeen]
    rfl
  have hps : passStep (mkRow Cc ⟨-70, 40, 100⟩ 1000) (mkRow Cc ⟨-70, 40, 100⟩ 1000) =
      { mkRow Cc ⟨-70, 40, 100⟩ 1000 with spd := none, hdg := none } :=
    passStep_zero _ _ (getDistance_self _ _)
  have hsynth : synthesize Cc fDup =
      Except.error "TypeError: cannot read properties of undefined" := by
    unfold synthesize
    rw [hdd]
    have hcd : computeDerived [mkRow Cc ⟨-70, 40, 100⟩ 1000] =
        [passStep (mkRow Cc ⟨-70, 40, 100⟩ 1000) (mkRow Cc ⟨-70, 40, 100⟩ 1000)] := rfl
    rw [hcd, hps]
    simp [backfill]
  refine ⟨by rw [hdd]; rfl, hsynth, ?_⟩
  have hpf : processFeed Cc ⟨"", none⟩ fDup =
      Except.error "TypeError: cannot read properties of undefined" := by
    unfold processFeed
    rw [if_neg (by decide), hsynth]
  show (match processFeed Cc ⟨"", none⟩ fDup with
    | Except.error e => Except.error e
    | Except.ok st' => processFeeds Cc st' []) = _
  rw [hpf]

/-! ### The multi-source loop -/

/-- C7.  A source whose trajectory has fewer than 2 points is skipped
(`continue`), not an error: processing any feed list containing it gives
exactly the result of processing the list without it, so the remaining
sources are still synthesized and rendered. -/
theorem short_feed_skipped (C : Collab) (st : LoopState) (pre post : List Feed)
    (f : Feed) (hshort : f.coordinates.length ≤ 1) :
    processFeeds C st (pre ++ f :: post) = processFeeds C st (pre ++ post) := by
  induction pre generalizing st with
  | nil =>
    have hpf : processFeed C st f = Except.ok st := by
      unfold processFeed
      rw [if_pos hshort]
    show (match processFeed C st f with
      | Except.error e => Except.error e
      | Except.ok st' => processFeeds C st' post) = processFeeds C st post
    rw [hpf]
  | cons g pre' ih =>
    show (match processFeed C st g with
      | Except.error e => Except.error e
      | Except.ok st' => processFeeds C st' (pre' ++ f :: post)) =
      (match processFeed C st g with
      | Except.error e => Except.error e
      | Except.ok st' => processFeeds C st' (pre' ++ post))
    cases processFeed C st g with
    | error e => rfl
    | ok st' => exact ih st'

/-- A successful backfill never returns an empty row list. -/
theorem backfill_ok_ne_nil (l l' : List Row) (h : backfill l = Except.ok l') :
    l' ≠ [] := by
  cases l with
  | nil => exact absurd h (by simp [backfill])
  | cons r0 rest =>
    simp only [backfill] at h
    by_cases h1 : r0.spd = none
    · rw [if_pos h1] at h
      cases rest with
      | nil => exact absurd h (by simp)
      | cons r1 rest' =>
        dsimp only at h
        by_cases h2 : r0.hdg = none
        · rw [if_pos h2] at h
          injection h with h'
          rw [← h']
          exact List.cons_ne_nil _ _
        · rw [if_neg h2] at h
          injection h with h'
          rw [← h']
          exact List.cons_ne_nil _ _
    · rw [if_neg h1] at h
      by_cases h2 : r0.hdg = none
      · rw [if_pos h2] at h
        cases rest with
        | nil => exact absurd h (by simp)
        | cons r1 rest' =>
          dsimp only at h
          injection h with h'
          rw [← h']
          exact List.cons_ne_nil _ _
      · rw [if_neg h2] at h
        injection h with h'
        rw [← h']
        exact List.cons_ne_nil _ _

/-- The loop computes, feed by feed, the concatenation of the
independently synthesized and rendered Tracks, and records the first
point of the first non-skipped Track. -/
theorem processFeeds_indep (C : Collab) (feeds : List Feed)
    (h : ∀ f ∈ feeds, f.coordinates.length ≤ 1 ∨
      ∃ rows, synthesize C f = Except.ok rows) :
    ∀ st : LoopState,
      processFeeds C st feeds = Except.ok
        { output := st.output ++ independentOutput C feeds
          first_timestamp :=
            match st.first_timestamp with
            | some t => some t
            | none => firstKeptTime C feeds } := by
  induction feeds with
  | nil =>
    intro st
    show Except.ok st = _
    have hio : independentOutput C [] = "" := rfl
    have hfk : firstKeptTime C [] = none := rfl
    rw [hio, hfk, String.append_empty]
    cases st with
    | mk out ts => cases ts <;> rfl
  | cons f fs ih =>
    intro st
    show (match processFeed C st f with
      | Except.error e => Except.error e
      | Except.ok st' => processFeeds C st' fs) = _
    by_cases hshort : f.coordinates.length ≤ 1
    · have hpf : processFeed C st f = Except.ok st := by
        unfold processFeed
        rw [if_pos hshort]
      rw [hpf]
      have hio : independentOutput C (f :: fs) = "" ++ independentOutput C fs := by
        show (if f.coordinates.length ≤ 1 then "" else _) ++ _ = _
        rw [if_pos hshort]
      have hfk : firstKeptTime C (f :: fs) = firstKeptTime C fs := by
        show (if f.coordinates.length ≤ 1 then firstKeptTime C fs else _) = _
        rw [if_pos hshort]
      rw [hio, hfk]
      exact ih (fun g hg => h g (List.mem_cons_of_mem f hg)) st
    · rcases h f (List.mem_cons_self f fs) with hc | ⟨rows, hok⟩
      · exact absurd hc hshort
      have hne := backfill_ok_ne_nil _ _ hok
      rcases List.exists_cons_of_ne_nil hne with ⟨r0, rtl, hrows⟩
      have hpf : processFeed C st f = Except.ok
          { output := st.output ++ String.join (rows.map (renderRow C))
            first_timestamp :=
              match st.first_timestamp with
              | none => rows.head?.map (fun r => r.t)
              | some t => some t } := by
        unfold processFeed
        rw [if_neg hshort, hok]
      rw [hpf]
      have hio : independentOutput C (f :: fs) =
          String.join (rows.map (renderRow C)) ++ independentOutput C fs := by
        show (if f.coordinates.length ≤ 1 then "" else _) ++ _ = _
        rw [if_neg hshort, hok]
      have hfk : firstKeptTime C (f :: fs) = rows.head?.map (fun r => r.t) := by
        show (if f.coordinates.length ≤ 1 then firstKeptTime C fs else _) = _
        rw [if_neg hshort, hok]
      dsimp only
      rw [ih (fun g hg => h g (List.mem_cons_of_mem f hg)), hio, hfk]
      refine congrArg Except.ok ?_
      dsimp only
      congr 1
      · exact String.append_assoc _ _ _
      · cases st.first_timestamp with
        | some t => rfl
        | none =>
          rw [hrows]
          rfl

/-- C6.  Each feed is deduplicated and derived-field-computed
independently as its own Track; the rendered rows are concatenated in the
caller's source order; and the first point of the first non-skipped
Track alone provides the timestamp of the default output filename. -/
theorem multi_source_composition (C : Collab) (feeds : List Feed)
    (h : ∀ f ∈ feeds, f.coordinates.length ≤ 1 ∨
      ∃ rows, synthesize C f = Except.ok rows) :
    processFeeds C ⟨"", none⟩ feeds =
      Except.ok ⟨independentOutput C feeds, firstKeptTime C feeds⟩ ∧
    ∀ (ident model : String) (ts : ℤ), firstKeptTime C feeds = some ts →
      runMain C ident model feeds =
        Except.ok ("outputs/" ++ jsToUpper ident ++ "-" ++ C.fmtName ts ++ ".csv",
          header ident model ++ independentOutput C feeds) := by
  have hmain := processFeeds_indep C feeds h ⟨"", none⟩
  have hmain' : processFeeds C ⟨"", none⟩ feeds =
      Except.ok ⟨independentOutput C feeds, firstKeptTime C feeds⟩ := hmain
  refine ⟨hmain', ?_⟩
  intro ident model ts hts
  unfold runMain
  rw [hmain']
  show (match (⟨independentOutput C feeds, firstKeptTime C feeds⟩ : LoopState).first_timestamp
    with
    | none => Except.error "RangeError: invalid time value"
    | some ts => Except.ok
        ("outputs/" ++ jsToUpper ident ++ "-" ++ C.fmtName ts ++ ".csv",
         header ident model ++
           (⟨independentOutput C feeds, firstKeptTime C feeds⟩ : LoopState).output)) = _
  rw [show (⟨independentOutput C feeds, firstKeptTime C feeds⟩ : LoopState).first_timestamp
    = firstKeptTime C feeds from rfl, hts]

/-! ### Character counting for the rendered output -/

theorem countChar_append (c : Char) (s t : String) :
    countChar c (s ++ t) = countChar c s + countChar c t := by
  simp [countChar, String.data_append, List.count_append]

theorem countChar_padStart (c : Char) (hc : c ≠ ' ') (s : String) (n : ℕ) :
    countChar c (padStart s n) = countChar c s := by
  rw [padStart, countChar_append]
  have h0 : countChar c (String.mk (List.replicate (n - s.length) ' ')) = 0 := by
    simp [countChar, List.count_replicate]
    exact fun h => absurd h.symm hc
  rw [h0, Nat.zero_add]

theorem countChar_padEnd (c : Char) (hc : c ≠ ' ') (s : String) (n : ℕ) :
    countChar c (padEnd s n) = countChar c s := by
  rw [padEnd, countChar_append]
  have h0 : countChar c (String.mk (List.replicate (n - s.length) ' ')) = 0 := by
    simp [countChar, List.count_replicate]
    exact fun h => absurd h.symm hc
  rw [h0, Nat.add_zero]

theorem countChar_strOptInt (c : Char) (C : Collab) (o : Option ℤ)
    (hint : ∀ n : ℤ, countChar c (C.intStr n) = 0)
    (hu : countChar c "undefined" = 0) :
    countChar c (strOptInt C o) = 0 := by
  cases o with
  | none => exact hu
  | some n => exact hint n

set_option maxRecDepth 8000 in
/-- A rendered data line contains exactly 39 commas — 40 comma-separated
fields — whenever none of the interpolated strings contains a comma. -/
theorem renderRow_commas (C : Collab) (r : Row)
    (hdate : countChar ',' r.date = 0) (htime : countChar ',' r.time = 0)
    (hzone : countChar ',' r.zone = 0) (hpitch : countChar ',' r.pitch = 0)
    (hbank : countChar ',' r.bank = 0)
    (hnum : ∀ x : ℝ, countChar ',' (C.numStr x) = 0)
    (hint : ∀ n : ℤ, countChar ',' (C.intStr n) = 0) :
    countChar ',' (renderRow C r) = 39 := by
  have hps := countChar_padStart ',' (by decide)
  have hpe := countChar_padEnd ',' (by decide)
  have hso := fun o => countChar_strOptInt ',' C o hint (by decide)
  simp only [renderRow, countChar_append, hps, hpe, hso, hdate, htime, hzone,
    hpitch, hbank, hnum, hint]
  decide

set_option maxRecDepth 8000 in
/-- A rendered data line contains exactly one newline (the terminator)
whenever none of the interpolated strings contains a newline. -/
theorem renderRow_newlines (C : Collab) (r : Row)
    (hdate : countChar '\n' r.date = 0) (htime : countChar '\n' r.time = 0)
    (hzone : countChar '\n' r.zone = 0) (hpitch : countChar '\n' r.pitch = 0)
    (hbank : countChar '\n' r.bank = 0)
    (hnum : ∀ x : ℝ, countChar '\n' (C.numStr x) = 0)
    (hint : ∀ n : ℤ, countChar '\n' (C.intStr n) = 0) :
    countChar '\n' (renderRow C r) = 1 := by
  have hps := countChar_padStart '\n' (by decide)
  have hpe := countChar_padEnd '\n' (by decide)
  have hso := fun o => countChar_strOptInt '\n' C o hint (by decide)
  simp only [renderRow, countChar_append, hps, hpe, hso, hdate, htime, hzone,
    hpitch, hbank, hnum, hint]
  decide

/-- The header template consists of the interpolated first line followed
by the two fixed schema rows. -/
theorem header_split (ident model : String) :
    header ident model = headerLine1 ident model ++ (headerLine2 ++ headerLine3) := by
  unfold header headerLine1
  rw [String.append_assoc]

set_option maxRecDepth 8000 in
/-- The header contains exactly three newlines whenever the upper-cased
ident and model contain none. -/
theorem header_newlines (ident model : String)
    (hi : countChar '\n' (jsToUpper ident) = 0)
    (hm : countChar '\n' (jsToUpper model) = 0) :
    countChar '\n' (header ident model) = 3 := by
  unfold header
  simp only [countChar_append, hi, hm]
  decide

theorem countChar_join (c : Char) (l : List String) :
    countChar c (String.join l) = (l.map (countChar c)).sum := by
  have hgen : ∀ (l : List String) (acc : String),
      countChar c (List.foldl (fun a b => a ++ b) acc l) =
        countChar c acc + (l.map (countChar c)).sum := by
    intro l
    induction l with
    | nil => intro acc; simp
    | cons s l' ih =>
      intro acc
      show countChar c (List.foldl (fun a b => a ++ b) (acc ++ s) l') = _
      rw [ih (acc ++ s), countChar_append]
      simp [Nat.add_assoc]
  have hj : String.join l = List.foldl (fun a b => a ++ b) "" l := rfl
  rw [hj, hgen l "", show countChar c "" = 0 from rfl, Nat.zero_add]

theorem sum_map_all_one {α : Type} (l : List α) (g : α → ℕ)
    (h : ∀ x ∈ l, g x = 1) : (l.map g).sum = l.length := by
  induction l with
  | nil => rfl
  | cons a l' ih =>
    rw [List.map_cons, List.sum_cons, h a (List.mem_cons_self a l'),
      ih (fun x hx => h x (List.mem_cons_of_mem a hx)), List.length_cons,
      Nat.add_comm]

/-! ### Provenance of the string fields of synthesized rows -/

theorem passStep_date (last row : Row) : (passStep last row).date = row.date := by
  simp only [passStep]
  split <;> rfl

theorem passStep_time (last row : Row) : (passStep last row).time = row.time := by
  simp only [passStep]
  split <;> rfl

theorem passStep_zone (last row : Row) : (passStep last row).zone = row.zone := by
  simp only [passStep]
  split <;> rfl

theorem passStep_pitch (last row : Row) : (passStep last row).pitch = row.pitch := by
  simp only [passStep]
  split <;> rfl

theorem passStep_bank (last row : Row) : (passStep last row).bank = row.bank := by
  simp only [passStep]
  split <;> rfl

theorem dedupSeen_subset :
    ∀ (seen : List ℤ) (l : List Row) (r : Row), r ∈ dedupSeen seen l → r ∈ l := by
  intro seen l
  induction l generalizing seen with
  | nil => intro r hr; exact absurd hr (List.not_mem_nil r)
  | cons a l' ih =>
    intro r hr
    have hds : dedupSeen seen (a :: l') =
        if a.t ∈ seen then dedupSeen seen l'
        else a :: dedupSeen (a.t :: seen) l' := rfl
    rw [hds] at hr
    by_cases hmem : a.t ∈ seen
    · rw [if_pos hmem] at hr
      exact List.mem_cons_of_mem _ (ih seen r hr)
    · rw [if_neg hmem] at hr
      rcases List.mem_cons.mp hr with rfl | hr'
      · exact List.mem_cons_self _ _
      · exact List.mem_cons_of_mem _ (ih (a.t :: seen) r hr')

theorem derivedGo_strings (l : List Row) :
    ∀ (last r : Row), r ∈ derivedGo last l →
      ∃ s ∈ l, r.date = s.date ∧ r.time = s.time ∧ r.zone = s.zone ∧
        r.pitch = s.pitch ∧ r.bank = s.bank := by
  induction l with
  | nil => intro last r hr; exact absurd hr (List.not_mem_nil r)
  | cons b l' ih =>
    intro last r hr
    have hgo : derivedGo last (b :: l') =
        passStep last b :: derivedGo (passStep last b) l' := rfl
    rw [hgo] at hr
    rcases List.mem_cons.mp hr with rfl | hr'
    · exact ⟨b, List.mem_cons_self _ _, passStep_date _ _, passStep_time _ _,
        passStep_zone _ _, passStep_pitch _ _, passStep_bank _ _⟩
    · rcases ih (passStep last b) r hr' with ⟨s, hs, he⟩
      exact ⟨s, List.mem_cons_of_mem _ hs, he⟩

theorem computeDerived_strings (l : List Row) (r : Row)
    (hr : r ∈ computeDerived l) :
    ∃ s ∈ l, r.date = s.date ∧ r.time = s.time ∧ r.zone = s.zone ∧
      r.pitch = s.pitch ∧ r.bank = s.bank := by
  cases l with
  | nil => exact absurd hr (List.not_mem_nil r)
  | cons r0 tl => exact derivedGo_strings (r0 :: tl) r0 r hr

theorem backfill_strings (l l' : List Row) (h : backfill l = Except.ok l') :
    ∀ r ∈ l', ∃ s ∈ l, r.date = s.date ∧ r.time = s.time ∧ r.zone = s.zone ∧
      r.pitch = s.pitch ∧ r.bank = s.bank := by
  cases l with
  | nil => exact absurd h (by simp [backfill])
  | cons r0 rest =>
    simp only [backfill] at h
    by_cases h1 : r0.spd = none
    · rw [if_pos h1] at h
      cases rest with
      | nil => exact absurd h (by simp)
      | cons r1 rest' =>
        dsimp only at h
        by_cases h2 : r0.hdg = none
        · rw [if_pos h2] at h
          injection h with h'
          rw [← h']
          intro r hr
          rcases List.mem_cons.mp hr with rfl | hr'
          · exact ⟨r0, List.mem_cons_self _ _, rfl, rfl, rfl, rfl, rfl⟩
          · exact ⟨r, List.mem_cons_of_mem _ hr', rfl, rfl, rfl, rfl, rfl⟩
        · rw [if_neg h2] at h
          injection h with h'
          rw [← h']
          intro r hr
          rcases List.mem_cons.mp hr with rfl | hr'
          · exact ⟨r0, List.mem_cons_self _ _, rfl, rfl, rfl, rfl, rfl⟩
          · exact ⟨r, List.mem_cons_of_mem _ hr', rfl, rfl, rfl, rfl, rfl⟩
    · rw [if_neg h1] at h
      by_cases h2 : r0.hdg = none
      · rw [if_pos h2] at h
        cases rest with
        | nil => exact absurd h (by simp)
        | cons r1 rest' =>
          dsimp only at h
          injection h with h'
          rw [← h']
          intro r hr
          rcases List.mem_cons.mp hr with rfl | hr'
          · exact ⟨r0, List.mem_cons_self _ _, rfl, rfl, rfl, rfl, rfl⟩
          · exact ⟨r, List.mem_cons_of_mem _ hr', rfl, rfl, rfl, rfl, rfl⟩
      · rw [if_neg h2] at h
        injection h with h'
        rw [← h']
        intro r hr
        exact ⟨r, hr, rfl, rfl, rfl, rfl, rfl⟩

/-- Every point of a synthesized Track carries the formatter-produced
date and time strings and the constant zone/pitch/bank strings. -/
theorem synthesize_strings (C : Collab) (f : Feed) (rows' : List Row)
    (hok : synthesize C f = Except.ok rows') :
    ∀ r ∈ rows', (∃ t, r.date = C.fmtDate t) ∧ (∃ t, r.time = C.fmtTime t) ∧
      r.zone = "-00:00" ∧ r.pitch = "0" ∧ r.bank = "0" := by
  intro r hr
  unfold synthesize at hok
  rcases backfill_strings _ _ hok r hr with ⟨s, hs, hd, ht, hz, hp, hb⟩
  rcases computeDerived_strings _ s hs with ⟨u, hu, hd2, ht2, hz2, hp2, hb2⟩
  have hu' : u ∈ extractRows C f := by
    apply dedupSeen_subset [] _ u
    rw [← dedup_eq_dedupSeen]
    exact hu
  rcases List.mem_map.mp hu' with ⟨p, _, hpu⟩
  refine ⟨⟨p.2, ?_⟩, ⟨p.2, ?_⟩, ?_, ?_, ?_⟩
  · rw [hd, hd2, ← hpu]
    rfl
  · rw [ht, ht2, ← hpu]
    rfl
  · rw [hz, hz2, ← hpu]
    rfl
  · rw [hp, hp2, ← hpu]
    rfl
  · rw [hb, hb2, ← hpu]
    rfl

set_option maxRecDepth 8000 in
/-- C4 (amended).  Every rendered data line has exactly 40
comma-separated fields (the interpolated strings contain no comma),
while the unit row and the column-name row of the header each declare 63
columns — the data lines do not match the declared schema width. -/
theorem rendered_line_fields (C : Collab) (f : Feed) (rows' : List Row)
    (hok : synthesize C f = Except.ok rows')
    (hdt : ∀ t : ℤ, countChar ',' (C.fmtDate t) = 0)
    (htm : ∀ t : ℤ, countChar ',' (C.fmtTime t) = 0)
    (hnum : ∀ x : ℝ, countChar ',' (C.numStr x) = 0)
    (hint : ∀ n : ℤ, countChar ',' (C.intStr n) = 0) :
    (∀ r ∈ rows', fieldCount (renderRow C r) = 40) ∧
      fieldCount headerLine2 = 63 ∧ fieldCount headerLine3 = 63 := by
  refine ⟨?_, by decide, by decide⟩
  intro r hr
  rcases synthesize_strings C f rows' hok r hr with ⟨⟨t1, h1⟩, ⟨t2, h2⟩, h3, h4, h5⟩
  have hc := renderRow_commas C r (by rw [h1]; exact hdt t1) (by rw [h2]; exact htm t2)
    (by rw [h3]; decide) (by rw [h4]; decide) (by rw [h5]; decide) hnum hint
  rw [fieldCount, hc]

/-! ### Facts needed to reconstruct a run from its result -/

theorem synthesize_ok_dedup_len (C : Collab) (f : Feed) (rows' : List Row)
    (hok : synthesize C f = Except.ok rows') :
    2 ≤ (dedup (extractRows C f)).length := by
  unfold synthesize at hok
  rcases hdd : dedup (extractRows C f) with _ | ⟨d0, dtl⟩
  · rw [hdd] at hok
    exact absurd hok (by simp [computeDerived, backfill])
  rcases dtl with _ | ⟨d1, dtl'⟩
  · rw [hdd] at hok
    have hc1 : computeDerived [d0] = [passStep d0 d0] := rfl
    rw [hc1, passStep_zero d0 d0 (getDistance_self _ _)] at hok
    exact absurd hok (by simp [backfill])
  · show 2 ≤ dtl'.length + 1 + 1
    omega

theorem dedupSeen_length_le :
    ∀ (seen : List ℤ) (l : List Row), (dedupSeen seen l).length ≤ l.length := by
  intro seen l
  induction l generalizing seen with
  | nil => exact Nat.le_refl 0
  | cons a l' ih =>
    have hds : dedupSeen seen (a :: l') =
        if a.t ∈ seen then dedupSeen seen l'
        else a :: dedupSeen (a.t :: seen) l' := rfl
    rw [hds]
    by_cases hmem : a.t ∈ seen
    · rw [if_pos hmem]
      exact Nat.le_succ_of_le (ih seen)
    · rw [if_neg hmem]
      exact Nat.succ_le_succ (ih (a.t :: seen))

theorem extractRows_length_le (C : Collab) (f : Feed) :
    (extractRows C f).length ≤ f.coordinates.length := by
  rw [extractRows, List.length_map, List.length_zip]
  exact min_le_left _ _

set_option maxRecDepth 8000 in
/-- C5 (amended).  The rendered output file of a one-feed run is the
three-line header followed by exactly one data line per TrackPoint: its
newline count is `3 + n` for an `n`-point Track (a 3-point Track gives a
6-line file, not 5). -/
theorem rendered_file_lines (C : Collab) (i m : String) (f : Feed)
    (fn ct : String) (rows' : List Row)
    (hok : synthesize C f = Except.ok rows')
    (hrun : runMain C i m [f] = Except.ok (fn, ct))
    (hdt : ∀ t : ℤ, countChar '\n' (C.fmtDate t) = 0)
    (htm : ∀ t : ℤ, countChar '\n' (C.fmtTime t) = 0)
    (hnum : ∀ x : ℝ, countChar '\n' (C.numStr x) = 0)
    (hint : ∀ n : ℤ, countChar '\n' (C.intStr n) = 0)
    (hi : countChar '\n' (jsToUpper i) = 0)
    (hm : countChar '\n' (jsToUpper m) = 0) :
    ct = header i m ++ String.join (rows'.map (renderRow C)) ∧
      countChar '\n' (header i m) = 3 ∧
      countChar '\n' ct = 3 + rows'.length := by
  have hnshort : ¬ f.coordinates.length ≤ 1 := by
    have ha := synthesize_ok_dedup_len C f rows' hok
    have hb := dedupSeen_length_le [] (extractRows C f)
    rw [← dedup_eq_dedupSeen] at hb
    have hc := extractRows_length_le C f
    omega
  have hne := backfill_ok_ne_nil _ _ hok
  rcases List.exists_cons_of_ne_nil hne with ⟨r0, rtl, hrows⟩
  subst hrows
  have hpf : processFeed C ⟨"", none⟩ f = Except.ok
      ⟨"" ++ String.join ((r0 :: rtl).map (renderRow C)), some r0.t⟩ := by
    unfold processFeed
    rw [if_neg hnshort, hok]
    rfl
  have hpfs : processFeeds C ⟨"", none⟩ [f] = Except.ok
      ⟨"" ++ String.join ((r0 :: rtl).map (renderRow C)), some r0.t⟩ := by
    show (match processFeed C ⟨"", none⟩ f with
      | Except.error e => Except.error e
      | Except.ok st' => processFeeds C st' []) = _
    rw [hpf]
    rfl
  have hrm : runMain C i m [f] = Except.ok
      ("outputs/" ++ jsToUpper i ++ "-" ++ C.fmtName r0.t ++ ".csv",
        header i m ++ ("" ++ String.join ((r0 :: rtl).map (renderRow C)))) := by
    unfold runMain
    rw [hpfs]
  have hinj := hrm.symm.trans hrun
  injection hinj with hpair
  injection hpair with hfn hct
  refine ⟨hct.symm, header_newlines i m hi hm, ?_⟩
  have hone : ∀ s ∈ (r0 :: rtl).map (renderRow C), countChar '\n' s = 1 := by
    intro s hs
    rcases List.mem_map.mp hs with ⟨r, hrr, rfl⟩
    rcases synthesize_strings C f _ hok r hrr with ⟨⟨t1, h1⟩, ⟨t2, h2⟩, h3, h4, h5⟩
    exact renderRow_newlines C r (by rw [h1]; exact hdt t1) (by rw [h2]; exact htm t2)
      (by rw [h3]; decide) (by rw [h4]; decide) (by rw [h5]; decide) hnum hint
  have hsum := sum_map_all_one _ _ hone
  rw [← hct, countChar_append, countChar_append, header_newlines i m hi hm,
    countChar_join, hsum, List.length_map, show countChar '\n' "" = 0 from rfl]
  omega

/-- The shape of a successful run's result: the content is the
interpolated first header line followed by a tail depending only on the
collaborators and the feeds; the filename is the upper-cased ident plus a
timestamp stamp depending only on the collaborators and the feeds. -/
theorem runMain_shape (C : Collab) (feeds : List Feed) (i m fn ct : String)
    (h : runMain C i m feeds = Except.ok (fn, ct)) :
    ct = headerLine1 i m ++ runContentTail C feeds ∧
      fn = "outputs/" ++ jsToUpper i ++ "-" ++ runNameStamp C feeds ++ ".csv" := by
  unfold runMain at h
  rcases hpf : processFeeds C ⟨"", none⟩ feeds with e | st
  · rw [hpf] at h
    exact absurd h (by simp)
  rw [hpf] at h
  dsimp only at h
  rcases hts : st.first_timestamp with _ | ts
  · rw [hts] at h
    exact absurd h (by simp)
  rw [hts] at h
  injection h with hpair
  injection hpair with hfn hct
  have htail : runContentTail C feeds = (headerLine2 ++ headerLine3) ++ st.output := by
    unfold runContentTail
    rw [hpf]
  have hstamp : runNameStamp C feeds = C.fmtName ts := by
    unfold runNameStamp
    rw [hpf]
    dsimp only
    rw [hts]
  constructor
  · rw [← hct, htail, header_split, String.append_assoc]
  · rw [← hfn, hstamp]

/-- C10.  Two runs on the same feeds that differ only in the supplied
ident and model produce identical content after the first header line (in
particular identical unit/column rows and identical data lines) and
filenames that differ only in the upper-cased ident: ident and model
influence only the interpolated first header line and the default
filename. -/
theorem ident_model_confined (C : Collab) (feeds : List Feed)
    (i m i' m' fn ct fn' ct' : String)
    (h : runMain C i m feeds = Except.ok (fn, ct))
    (h' : runMain C i' m' feeds = Except.ok (fn', ct')) :
    ct = headerLine1 i m ++ runContentTail C feeds ∧
      ct' = headerLine1 i' m' ++ runContentTail C feeds ∧
      fn = "outputs/" ++ jsToUpper i ++ "-" ++ runNameStamp C feeds ++ ".csv" ∧
      fn' = "outputs/" ++ jsToUpper i' ++ "-" ++ runNameStamp C feeds ++ ".csv" := by
  rcases runMain_shape C feeds i m fn ct h with ⟨hc1, hf1⟩
  rcases runMain_shape C feeds i' m' fn' ct' h' with ⟨hc2, hf2⟩
  exact ⟨hc1, hc2, hf1, hf2⟩

/-! ### Concrete runs, counterexample evaluations and witnesses -/

/-- On the equator, two points 90° of longitude apart are at nonzero
computed distance. -/
theorem dist_ninety_ne (a b : ℝ) (hab : b - a = 90) :
    getDistanceFromLatLonInNm 0 a 0 b ≠ 0 := by
  apply getDistance_equator_ne
  have h : deg2rad (b - a) / 2 = Real.pi / 4 := by
    rw [hab]
    unfold deg2rad
    ring
  rw [h, Real.sin_pi_div_four]
  positivity

theorem extract_gf : extractRows Cc gf = [gRow0, gRow1] := rfl

theorem dedup_gf : dedup [gRow0, gRow1] = [gRow0, gRow1] := by
  rw [dedup_eq_dedupSeen]
  rfl

theorem passStep_g00 : passStep gRow0 gRow0 = gRow0 := by
  rw [passStep_zero gRow0 gRow0 (getDistance_self _ _)]
  exact row_update_eq _ _ _ rfl rfl

theorem passStep_g01 : passStep gRow0 gRow1 = gRow1s := by
  have hd : getDistanceFromLatLonInNm gRow0.lat gRow0.lon gRow1.lat gRow1.lon ≠ 0 :=
    dist_ninety_ne 0 90 (by norm_num)
  rw [passStep_ne gRow0 gRow1 hd]
  rfl

theorem cd_gf : computeDerived [gRow0, gRow1] = [gRow0, gRow1s] := by
  have h1 : computeDerived [gRow0, gRow1] =
      passStep gRow0 gRow0 :: passStep (passStep gRow0 gRow0) gRow1 :: [] := rfl
  rw [h1, passStep_g00, passStep_g01]

theorem bf_gf : backfill [gRow0, gRow1s] = Except.ok gfRows := by
  rw [backfill_cons_none gRow0 gRow1s [] rfl rfl]
  rfl

/-- The two-point equator feed synthesizes successfully. -/
theorem synth_gf : synthesize Cc gf = Except.ok gfRows := by
  unfold synthesize
  rw [extract_gf, dedup_gf, cd_gf, bf_gf]

theorem extract_f3 : extractRows Cc f3 = [gRow0, gRow1, qRow2] := rfl

theorem dedup_f3 : dedup [gRow0, gRow1, qRow2] = [gRow0, gRow1, qRow2] := by
  rw [dedup_eq_dedupSeen]
  rfl

theorem passStep_g12 : passStep gRow1s qRow2 = qRow2s := by
  have hd : getDistanceFromLatLonInNm gRow1s.lat gRow1s.lon qRow2.lat qRow2.lon ≠ 0 :=
    dist_ninety_ne 90 180 (by norm_num)
  rw [passStep_ne gRow1s qRow2 hd]
  rfl

theorem cd_f3 : computeDerived [gRow0, gRow1, qRow2] = [gRow0, gRow1s, qRow2s] := by
  have h1 : computeDerived [gRow0, gRow1, qRow2] =
      passStep gRow0 gRow0 :: passStep (passStep gRow0 gRow0) gRow1 ::
        passStep (passStep (passStep gRow0 gRow0) gRow1) qRow2 :: [] := rfl
  rw [h1, passStep_g00, passStep_g01, passStep_g12]

theorem bf_f3 : backfill [gRow0, gRow1s, qRow2s] = Except.ok f3Rows := by
  rw [backfill_cons_none gRow0 gRow1s [qRow2s] rfl rfl]
  rfl

/-- The three-point equator feed synthesizes successfully. -/
theorem synth_f3 : synthesize Cc f3 = Except.ok f3Rows := by
  unfold synthesize
  rw [extract_f3, dedup_f3, cd_f3, bf_f3]

/-- A concrete run over the two-point feed, for any ident and model. -/
theorem run_gf (i m : String) : runMain Cc i m [gf] = Except.ok
    ("outputs/" ++ jsToUpper i ++ "-" ++ Cc.fmtName 0 ++ ".csv",
      header i m ++ gfJoined) := by
  have hpf : processFeed Cc ⟨"", none⟩ gf = Except.ok ⟨"" ++ gfJoined, some 0⟩ := by
    unfold processFeed
    rw [if_neg (by decide), synth_gf]
    rfl
  have hpfs : processFeeds Cc ⟨"", none⟩ [gf] = Except.ok ⟨"" ++ gfJoined, some 0⟩ := by
    show (match processFeed Cc ⟨"", none⟩ gf with
      | Except.error e => Except.error e
      | Except.ok st' => processFeeds Cc st' []) = _
    rw [hpf]
    rfl
  unfold runMain
  rw [hpfs]
  rfl

/-- A concrete run over the three-point feed. -/
theorem run_f3 : runMain Cc "a" "b" [f3] = Except.ok (f3name, f3content) := by
  have hpf : processFeed Cc ⟨"", none⟩ f3 = Except.ok
      ⟨"" ++ String.join (f3Rows.map (renderRow Cc)), some 0⟩ := by
    unfold processFeed
    rw [if_neg (by decide), synth_f3]
    rfl
  have hpfs : processFeeds Cc ⟨"", none⟩ [f3] = Except.ok
      ⟨"" ++ String.join (f3Rows.map (renderRow Cc)), some 0⟩ := by
    show (match processFeed Cc ⟨"", none⟩ f3 with
      | Except.error e => Except.error e
      | Except.ok st' => processFeeds Cc st' []) = _
    rw [hpf]
    rfl
  unfold runMain
  rw [hpfs]
  rfl

/-- C3 (witness): on the concrete two-point Track at nonzero distance,
both points end up with defined speed and heading. -/
theorem synthesize_all_defined_witness :
    gRow0s.spd.isSome ∧ gRow0s.hdg.isSome ∧
      gRow1s.spd.isSome ∧ gRow1s.hdg.isSome := by
  have hch : List.Chain' (fun a b =>
      getDistanceFromLatLonInNm a.lat a.lon b.lat b.lon ≠ 0) gfRows := by
    apply List.chain'_cons.mpr
    exact ⟨dist_ninety_ne 0 90 (by norm_num), List.chain'_singleton _⟩
  have h := synthesize_all_defined Cc gf gfRows synth_gf (by decide) hch
  exact ⟨(h gRow0s (by simp [gfRows])).1, (h gRow0s (by simp [gfRows])).2,
    (h gRow1s (by simp [gfRows])).1, (h gRow1s (by simp [gfRows])).2⟩

set_option maxRecDepth 8000 in
/-- C4 (counterexample): a concrete rendered data line has 40
comma-separated fields, not 44, and the unit and column-name rows
declare 63 columns, not 44. -/
theorem rendered_line_not_44 :
    fieldCount (renderRow Cc gRow0) = 40 ∧ fieldCount (renderRow Cc gRow0) ≠ 44 ∧
      fieldCount headerLine2 = 63 ∧ fieldCount headerLine2 ≠ 44 ∧
      fieldCount headerLine3 = 63 :=
  ⟨by decide, by decide, by decide, by decide, by decide⟩

/-- C4 (witness): the field-count theorem applied to the concrete
two-point run. -/
theorem rendered_line_fields_witness :
    fieldCount (renderRow Cc gRow0s) = 40 ∧
      fieldCount headerLine2 = 63 ∧ fieldCount headerLine3 = 63 := by
  have hdt : ∀ t : ℤ, countChar ',' (Cc.fmtDate t) = 0 := by
    intro t
    show countChar ',' "2020-01-01" = 0
    decide
  have htm : ∀ t : ℤ, countChar ',' (Cc.fmtTime t) = 0 := by
    intro t
    show countChar ',' "00:00:00" = 0
    decide
  have hnum : ∀ x : ℝ, countChar ',' (Cc.numStr x) = 0 := by
    intro x
    show countChar ',' "0" = 0
    decide
  have hint : ∀ n : ℤ, countChar ',' (Cc.intStr n) = 0 := by
    intro n
    show countChar ',' "0" = 0
    decide
  have h := rendered_line_fields Cc gf gfRows synth_gf hdt htm hnum hint
  exact ⟨h.1 gRow0s (by simp [gfRows]), h.2.1, h.2.2⟩

set_option maxRecDepth 16000 in
/-- C5 (counterexample): a 3-point Track renders as a 6-line file — three
header lines plus three data lines — not the claimed 2 + 3 = 5. -/
theorem three_point_file_six_lines :
    runMain Cc "a" "b" [f3] = Except.ok (f3name, f3content) ∧
      f3Rows.length = 3 ∧
      countChar '\n' f3content = 6 ∧ countChar '\n' f3content ≠ 5 :=
  ⟨run_f3, rfl, by decide, by decide⟩

/-- C5 (witness): the line-count theorem applied to the concrete
two-point run. -/
theorem rendered_file_lines_witness :
    header "A" "B" ++ gfJoined = header "A" "B" ++ String.join (gfRows.map (renderRow Cc)) ∧
      countChar '\n' (header "A" "B") = 3 ∧
      countChar '\n' (header "A" "B" ++ gfJoined) = 3 + gfRows.length := by
  have hdt : ∀ t : ℤ, countChar '\n' (Cc.fmtDate t) = 0 := by
    intro t
    show countChar '\n' "2020-01-01" = 0
    decide
  have htm : ∀ t : ℤ, countChar '\n' (Cc.fmtTime t) = 0 := by
    intro t
    show countChar '\n' "00:00:00" = 0
    decide
  have hnum : ∀ x : ℝ, countChar '\n' (Cc.numStr x) = 0 := by
    intro x
    show countChar '\n' "0" = 0
    decide
  have hint : ∀ n : ℤ, countChar '\n' (Cc.intStr n) = 0 := by
    intro n
    show countChar '\n' "0" = 0
    decide
  exact rendered_file_lines Cc "A" "B" gf _ _ gfRows synth_gf (run_gf "A" "B")
    hdt htm hnum hint (by decide) (by decide)

/-- C6 (witness): the composition theorem applied to a concrete one-feed
list, including the resulting default filename. -/
theorem multi_source_composition_witness :
    processFeeds Cc ⟨"", none⟩ [gf] =
      Except.ok ⟨independentOutput Cc [gf], firstKeptTime Cc [gf]⟩ ∧
      runMain Cc "n12" "c172" [gf] =
        Except.ok ("outputs/" ++ jsToUpper "n12" ++ "-" ++ Cc.fmtName 0 ++ ".csv",
          header "n12" "c172" ++ independentOutput Cc [gf]) := by
  have h := multi_source_composition Cc [gf] (by
    intro f hf
    rcases List.mem_singleton.mp hf with rfl
    exact Or.inr ⟨gfRows, synth_gf⟩)
  have hfk : firstKeptTime Cc [gf] = some 0 := by
    show (if gf.coordinates.length ≤ 1 then firstKeptTime Cc [] else
      match synthesize Cc gf with
      | Except.ok rows => rows.head?.map (fun r => r.t)
      | Except.error _ => firstKeptTime Cc []) = some 0
    rw [if_neg (by decide), synth_gf]
    rfl
  exact ⟨h.1, h.2 "n12" "c172" 0 hfk⟩

/-- C7 (witness): the skip theorem applied to a concrete one-coordinate
feed placed before a well-formed feed. -/
theorem short_feed_skipped_witness :
    fShort.coordinates.length ≤ 1 ∧
      processFeeds Cc ⟨"", none⟩ ([] ++ fShort :: [gf]) =
        processFeeds Cc ⟨"", none⟩ ([] ++ [gf]) :=
  ⟨by decide, short_feed_skipped Cc ⟨"", none⟩ [] [gf] fShort (by decide)⟩

/-- C10 (witness): two concrete runs differing only in ident and model
share everything after the first header line and the filename stamp. -/
theorem ident_model_confined_witness :
    header "ab" "cd" ++ gfJoined = headerLine1 "ab" "cd" ++ runContentTail Cc [gf] ∧
      header "xy" "zw" ++ gfJoined = headerLine1 "xy" "zw" ++ runContentTail Cc [gf] ∧
      "outputs/" ++ jsToUpper "ab" ++ "-" ++ Cc.fmtName 0 ++ ".csv" =
        "outputs/" ++ jsToUpper "ab" ++ "-" ++ runNameStamp Cc [gf] ++ ".csv" ∧
      "outputs/" ++ jsToUpper "xy" ++ "-" ++ Cc.fmtName 0 ++ ".csv" =
        "outputs/" ++ jsToUpper "xy" ++ "-" ++ runNameStamp Cc [gf] ++ ".csv" :=
  ident_model_confined Cc [gf] "ab" "cd" "xy" "zw" _ _ _ _
    (run_gf "ab" "cd") (run_gf "xy" "zw")

end Tracklog
